import Mathlib

/-!
Shallow embedding of the core of `binary-waterfall.py` (megascrapper/binary-waterfall):
the `BinaryWaterfall` class (color-format parsing, byte addressing, frame synthesis,
audio volume handling, configuration setters) and the `Renderer` class (frame count,
video export control flow).  Python machine arithmetic on floats is modelled by exact
rational arithmetic; Python's `round` (round-half-to-even) is modelled explicitly.
-/

set_option autoImplicit false

/-- Python's built-in `round` on an exact rational value: round half to even. -/
def pythonRound (q : ℚ) : ℤ :=
  if q - ⌊q⌋ < 1 / 2 then ⌊q⌋
  else if 1 / 2 < q - ⌊q⌋ then ⌊q⌋ + 1
  else if ⌊q⌋ % 2 = 0 then ⌊q⌋ else ⌊q⌋ + 1

/-- Truncation toward zero, as C's `(int)` cast used by `audioop.mul`. -/
def truncQ (q : ℚ) : ℤ :=
  if q < 0 then ⌈q⌉ else ⌊q⌋

/-- `math.ceil(total_bytes / address_block_size)` from `BinaryWaterfall.get_address`
(line 548), with the float division modelled exactly. -/
def total_blocks (total_bytes address_block_size : ℕ) : ℤ :=
  ⌈(total_bytes : ℚ) / (address_block_size : ℚ)⌉

/-- `BinaryWaterfall.get_address` (lines 546-550).  The `self` fields
`width`, `color_bytes`, `total_bytes` and `audio_length_ms` are passed explicitly. -/
def get_address (ms total_bytes audio_length_ms width color_bytes : ℕ) : ℤ :=
  let address_block_size := width * color_bytes
  let tb := total_blocks total_bytes address_block_size
  let address_block_offset := pythonRound ((ms : ℚ) * (tb : ℚ) / (audio_length_ms : ℚ))
  address_block_offset * address_block_size

/-- `BinaryWaterfall.ColorFmtCode` (lines 333-339), without the `VALID_OPTIONS` member
(modelled separately below). -/
inductive ColorFmtCode where
  | RED
  | GREEN
  | BLUE
  | WHITE
  | UNUSED
deriving DecidableEq

/-- The `.value` character of each `ColorFmtCode` member. -/
def ColorFmtCode.value : ColorFmtCode → Char
  | .RED => 'r'
  | .GREEN => 'g'
  | .BLUE => 'b'
  | .WHITE => 'w'
  | .UNUSED => 'x'

/-- `ColorFmtCode.VALID_OPTIONS.value = "rgbwx"` as a character list. -/
def VALID_OPTIONS : List Char := ['r', 'g', 'b', 'w', 'x']

/-- `BinaryWaterfall.ColorModeCode` (lines 341-343). -/
inductive ColorModeCode where
  | GRAYSCALE
  | RGB
deriving DecidableEq

/-- The result dictionary of `parse_color_format`: either `is_valid = False` together
with a `message`, or `is_valid = True` together with the derived fields. -/
inductive ParseResult where
  | invalid (message : String)
  | valid (used_color_bytes unused_color_bytes color_bytes : ℕ)
      (color_mode : ColorModeCode) (color_format : List ColorFmtCode)
deriving DecidableEq

/-- The `is_valid` entry of the result dictionary. -/
def ParseResult.is_valid : ParseResult → Bool
  | .invalid _ => false
  | .valid _ _ _ _ _ => true

/-- Characters removed by Python's `str.strip` (ASCII whitespace). -/
def isPySpace (c : Char) : Bool :=
  c = ' ' || c = '\t' || c = '\n' || c = '\r' || c = '\x0b' || c = '\x0c'

/-- Python's `str.lower`, restricted to ASCII (sufficient for the format alphabet). -/
def pyLower (c : Char) : Char := c.toLower

/-- Python's `str.strip` on a character list. -/
def pyStrip (l : List Char) : List Char :=
  ((l.dropWhile isPySpace).reverse.dropWhile isPySpace).reverse

/-- `color_format_string.strip().lower()` (line 361). -/
def normalize_format (s : String) : List Char :=
  (pyStrip s.data).map pyLower

/-- The `if c == ... elif c == ...` chain selecting the tag to append
(lines 432-441); only reached for characters inside `VALID_OPTIONS`. -/
def char_to_fmt (c : Char) : ColorFmtCode :=
  if c = 'r' then .RED
  else if c = 'g' then .GREEN
  else if c = 'b' then .BLUE
  else if c = 'w' then .WHITE
  else .UNUSED

/-- The `for c in color_format_string` loop of `parse_color_format` (lines 421-441):
`none` on the first character outside `VALID_OPTIONS`, otherwise the full tag list. -/
def build_color_format_list : List Char → Option (List ColorFmtCode)
  | [] => some []
  | c :: cs =>
    if c ∈ VALID_OPTIONS then
      match build_color_format_list cs with
      | none => none
      | some l => some (char_to_fmt c :: l)
    else none

/-- Tail of `parse_color_format` after the count checks (lines 421-449): the character
loop, followed by the derived byte-count fields of the result dictionary. -/
def finish_parse (t : List Char) (color_mode : ColorModeCode) : ParseResult :=
  match build_color_format_list t with
  | none => ParseResult.invalid
      ("Color formatting codes only accept \"r\" = red, \"g\" = green, \"b\" = blue, \"w\" = white, \"x\" = unused")
  | some color_format_list =>
    let used_color_bytes := (t.count 'r' + t.count 'g' + t.count 'b') + t.count 'w'
    let unused_color_bytes := t.count 'x'
    ParseResult.valid used_color_bytes unused_color_bytes
      (used_color_bytes + unused_color_bytes) color_mode color_format_list

/-- `BinaryWaterfall.parse_color_format` (lines 356-449) on the normalized
(stripped, lower-cased) character list. -/
def parse_color_format_core (t : List Char) : ParseResult :=
  let s := String.mk t
  let red_count := t.count 'r'
  let green_count := t.count 'g'
  let blue_count := t.count 'b'
  let white_count := t.count 'w'
  let rgb_count := red_count + green_count + blue_count
  if 0 < white_count then
    if 0 < rgb_count then
      ParseResult.invalid
        ("When using the grayscale mode formatter \"w\", you cannot use any of the RGB mode formatters \"r\", \"g\", or \"b\"")
    else if 1 < white_count then
      ParseResult.invalid
        (s!"Exactly 1 white channel format specifier \"w\" needed, but {white_count} were given in format string \"{s}\"")
    else
      finish_parse t ColorModeCode.GRAYSCALE
  else
    if rgb_count < 1 then
      ParseResult.invalid
        (s!"A minimum of 1 color format specifer (\"r\", \"g\", \"b\", or \"w\") is required, but none were given in format string \"{s}\"")
    else if 1 < red_count then
      ParseResult.invalid
        (s!"Exactly 1 red channel format specifier \"r\" allowed, but {red_count} were given in format string \"{s}\"")
    else if 1 < green_count then
      ParseResult.invalid
        (s!"Exactly 1 green channel format specifier \"g\" allowed, but {green_count} were given in format string \"{s}\"")
    else if 1 < blue_count then
      ParseResult.invalid
        (s!"Exactly 1 blue channel format specifier \"b\" allowed, but {blue_count} were given in format string \"{s}\"")
    else
      finish_parse t ColorModeCode.RGB

/-- `BinaryWaterfall.parse_color_format` (lines 356-449). -/
def parse_color_format (color_format_string : String) : ParseResult :=
  parse_color_format_core (normalize_format color_format_string)

/-- `BinaryWaterfall.get_color_format_string` (lines 462-467), applied to the stored
`color_format` tag list. -/
def get_color_format_string (color_format : List ColorFmtCode) : String :=
  String.mk (color_format.map ColorFmtCode.value)

/-- The Python slice `self.bytes[a : a + 1]` (lines 562-570): one byte when `a` is in
bounds, the empty byte string otherwise. -/
def slice1 (buffer : List ℕ) (a : ℕ) : List ℕ :=
  (buffer.drop a).take 1

/-- One iteration of the `for c in self.color_format` loop body of
`get_frame_bytestring` (lines 560-570): update of the three `this_byte` slots. -/
def pixel_step (buffer : List ℕ) (c : ColorFmtCode) (a : ℕ)
    (r g b : List ℕ) : List ℕ × List ℕ × List ℕ :=
  match c with
  | .RED => (slice1 buffer a, g, b)
  | .GREEN => (r, slice1 buffer a, b)
  | .BLUE => (r, g, slice1 buffer a)
  | .WHITE => (slice1 buffer a, slice1 buffer a, slice1 buffer a)
  | .UNUSED => (r, g, b)

/-- The full `for c in self.color_format` loop (lines 560-572), threading the three
`this_byte` slots and the running `current_address`. -/
def pixel_loop (buffer : List ℕ) :
    List ColorFmtCode → ℕ → List ℕ × List ℕ × List ℕ → List ℕ × List ℕ × List ℕ
  | [], _, tb => tb
  | c :: rest, a, (r, g, b) => pixel_loop buffer rest (a + 1) (pixel_step buffer c a r g b)

/-- One pixel of `get_frame_bytestring` (lines 558-574): `this_byte` starts as three
zero bytes and the result is `b"".join(this_byte)`. -/
def pixel_bytes (buffer : List ℕ) (color_format : List ColorFmtCode) (a : ℕ) : List ℕ :=
  let tb := pixel_loop buffer color_format a ([0], [0], [0])
  tb.1 ++ tb.2.1 ++ tb.2.2

/-- The row/column double loop of `get_frame_bytestring` (lines 556-574): `n`
consecutive pixels starting at address `a`; each pixel advances the address by
`color_format.length` (`current_address` is incremented once per tag). -/
def frame_pixels (buffer : List ℕ) (color_format : List ColorFmtCode) : ℕ → ℕ → List ℕ
  | 0, _ => []
  | n + 1, a =>
    pixel_bytes buffer color_format a ++
      frame_pixels buffer color_format n (a + color_format.length)

/-- `BinaryWaterfall.get_frame_bytestring` (lines 553-583) parameterized by the
starting byte address (the source computes it as `self.get_address(ms)`; see
`get_frame_bytestring_of_ms`).  Iterates `height * width` pixels, then zero-pads the
result up to `width * height * 3` bytes if it fell short. -/
def get_frame_bytestring (buffer : List ℕ) (color_format : List ColorFmtCode)
    (width height a : ℕ) : List ℕ :=
  let picture_bytes := frame_pixels buffer color_format (height * width) a
  let full_length := width * height * 3
  if picture_bytes.length < full_length then
    picture_bytes ++ List.replicate (full_length - picture_bytes.length) 0
  else picture_bytes

/-- `BinaryWaterfall.get_frame_bytestring` exactly as called in the source, with the
starting address derived from the millisecond timestamp via `get_address`. -/
def get_frame_bytestring_of_ms (buffer : List ℕ) (color_format : List ColorFmtCode)
    (width height audio_length_ms color_bytes ms : ℕ) : List ℕ :=
  get_frame_bytestring buffer color_format width height
    (get_address ms buffer.length audio_length_ms width color_bytes).toNat

/-- Whether a tag writes the red slot `this_byte[0]` (lines 561-562 and 567-568). -/
def writes_red : ColorFmtCode → Bool
  | .RED => true
  | .WHITE => true
  | _ => false

/-- Whether a tag writes the green slot `this_byte[1]` (lines 563-564 and 569). -/
def writes_green : ColorFmtCode → Bool
  | .GREEN => true
  | .WHITE => true
  | _ => false

/-- Whether a tag writes the blue slot `this_byte[2]` (lines 565-566 and 570). -/
def writes_blue : ColorFmtCode → Bool
  | .BLUE => true
  | .WHITE => true
  | _ => false

/-- The value of one `this_byte` slot after the tag loop: starting from `v`, each tag
that writes the slot replaces it with the one-byte slice at that tag's address. -/
def slot_after (buffer : List ℕ) (writes : ColorFmtCode → Bool) :
    List ColorFmtCode → ℕ → List ℕ → List ℕ
  | [], _, v => v
  | c :: rest, a, v =>
    slot_after buffer writes rest (a + 1) (if writes c then slice1 buffer a else v)

/-- The amplitude factor pydub applies in `compute_audio` (lines 529-537):
`audio += ratio_to_db(volume / 100)` followed by pydub's `db_to_float` compose to an
exact amplitude ratio of `volume / 100` (with `ratio_to_db 0 = -inf` and
`db_to_float (-inf) = 0`, i.e. the ratio `0` again), modelled exactly. -/
def gain_factor (volume : ℤ) : ℚ :=
  (volume : ℚ) / 100

/-- One sample under `audioop.mul` as used by pydub's `apply_gain`: multiply by the
factor, clip to the signed range of `sample_bytes`-byte samples, truncate to int. -/
def scale_sample (sample_bytes : ℕ) (factor : ℚ) (s : ℤ) : ℤ :=
  max (-(2 ^ (8 * sample_bytes - 1))) (min (truncQ (factor * s)) (2 ^ (8 * sample_bytes - 1) - 1))

/-- The PCM payload produced by `BinaryWaterfall.compute_audio` (lines 513-540), at
sample granularity: the raw buffer is written verbatim (`writeframesraw`, line 527);
if `volume != 100` every sample is then volume-scaled via pydub (lines 529-537). -/
def compute_audio_payload (samples : List ℤ) (sample_bytes : ℕ) (volume : ℤ) : List ℤ :=
  if volume ≠ 100 then samples.map (scale_sample sample_bytes (gain_factor volume))
  else samples

/-- The configuration state of a `BinaryWaterfall` instance: every field assigned by
`set_dims`, `set_color_format` and `set_audio_settings`, plus the loaded byte count
and the derived audio length. -/
structure BWConfig where
  total_bytes : ℕ
  width : ℤ
  height : ℤ
  used_color_bytes : ℕ
  unused_color_bytes : ℕ
  color_bytes : ℕ
  color_format : List ColorFmtCode
  num_channels : ℤ
  sample_bytes : ℤ
  sample_rate : ℤ
  volume : ℤ
  audio_length_ms : ℤ
deriving DecidableEq

/-- `BinaryWaterfall.compute_audio` (lines 513-540) as a state update: rebuilds the
audio artifact and stores its length.  The length itself is read back through pydub;
it is modelled from the spec: `getDurationMs = ceil(1000 * dataByteLength /
(channels * sampleBytes * sampleRate))`. -/
def compute_audio (s : BWConfig) : BWConfig :=
  { s with audio_length_ms :=
      ⌈(1000 * s.total_bytes : ℚ) / ((s.num_channels * s.sample_bytes * s.sample_rate : ℤ) : ℚ)⌉ }

/-- `BinaryWaterfall.set_dims` (lines 345-354).  A `raise` is modelled as
`Except.error` carrying the message and the object state at the moment of the raise. -/
def set_dims (s : BWConfig) (width height : ℤ) : Except (String × BWConfig) BWConfig :=
  if width < 4 then .error ("Visualization width must be at least 4", s)
  else if height < 4 then .error ("Visualization height must be at least 4", s)
  else .ok { s with width := width, height := height }

/-- `BinaryWaterfall.set_color_format` (lines 451-460). -/
def set_color_format (s : BWConfig) (color_format_string : String) :
    Except (String × BWConfig) BWConfig :=
  match parse_color_format color_format_string with
  | .invalid message => .error (message, s)
  | .valid used_color_bytes unused_color_bytes color_bytes _ color_format =>
    .ok { s with used_color_bytes := used_color_bytes,
                 unused_color_bytes := unused_color_bytes,
                 color_bytes := color_bytes,
                 color_format := color_format }

/-- `BinaryWaterfall.set_audio_settings` (lines 472-496): four validations, then the
four assignments, then `compute_audio`. -/
def set_audio_settings (s : BWConfig) (num_channels sample_bytes sample_rate volume : ℤ) :
    Except (String × BWConfig) BWConfig :=
  if ¬(num_channels = 1 ∨ num_channels = 2) then
    .error ("Invalid number of audio channels, must be either 1 or 2", s)
  else if ¬(sample_bytes = 1 ∨ sample_bytes = 2 ∨ sample_bytes = 3 ∨ sample_bytes = 4) then
    .error ("Invalid sample size (bytes), must be either 1, 2, 3, or 4", s)
  else if sample_rate < 1 then
    .error ("Invalid sample rate, must be at least 1", s)
  else if volume < 0 ∨ 100 < volume then
    .error ("Volume must be between 0 and 100", s)
  else
    .ok (compute_audio { s with num_channels := num_channels,
                                sample_bytes := sample_bytes,
                                sample_rate := sample_rate,
                                volume := volume })

/-- A concrete configuration holding the defaults of `BinaryWaterfall.__init__`
(lines 271-299): 48x48, `"bgrx"`, 1 channel, 1-byte samples, 32000 Hz, volume 100. -/
def default_config : BWConfig :=
  { total_bytes := 0
    width := 48
    height := 48
    used_color_bytes := 3
    unused_color_bytes := 1
    color_bytes := 4
    color_format := [ColorFmtCode.BLUE, ColorFmtCode.GREEN, ColorFmtCode.RED, ColorFmtCode.UNUSED]
    num_channels := 1
    sample_bytes := 1
    sample_rate := 32000
    volume := 100
    audio_length_ms := 0 }

/-- `Renderer.get_frame_count` (lines 2737-2741): the audio length in milliseconds is
divided by 1000 and multiplied by `fps`, then rounded by Python's `round`. -/
def get_frame_count (audio_length_ms : ℕ) (fps : ℚ) : ℤ :=
  pythonRound ((audio_length_ms : ℚ) / 1000 * fps)

/-- Abstract file-system facts tracked across `Renderer.export_video`. -/
structure FsState where
  scratchExists : Bool
  destExists : Bool
  muxRan : Bool
deriving DecidableEq

/-- How one call of `Renderer.export_video` terminated. -/
inductive ExportResult where
  | normal
  | canceled
  | exception
deriving DecidableEq

/-- `Renderer.export_video` (lines 2784-2864) as a step sequence over the abstract
file-system state: create the scratch directory, run the frame sequence, check
cancellation (only observable through a progress dialog), export audio (which may
raise), mux (which may raise), check cancellation again, then move the video into
the destination and remove the scratch directory.  A raise exits the function
immediately with the file system as it stood. -/
def export_video (has_dialog canceled1 canceled2 audio_raises mux_raises : Bool) :
    ExportResult × FsState :=
  let st0 : FsState := { scratchExists := true, destExists := false, muxRan := false }
  if has_dialog && canceled1 then
    (ExportResult.canceled, { st0 with scratchExists := false })
  else if audio_raises then
    (ExportResult.exception, st0)
  else if mux_raises then
    (ExportResult.exception, st0)
  else
    let st1 := { st0 with muxRan := true }
    if has_dialog && canceled2 then
      (ExportResult.canceled, { st1 with scratchExists := false })
    else
      (ExportResult.normal, { st1 with destExists := true, scratchExists := false })

theorem pythonRound_intCast (n : ℤ) : pythonRound (n : ℚ) = n := by
  simp [pythonRound, Int.floor_intCast]

theorem pythonRound_zero : pythonRound 0 = 0 := by
  norm_num [pythonRound]

theorem pythonRound_mono {q1 q2 : ℚ} (h : q1 ≤ q2) : pythonRound q1 ≤ pythonRound q2 := by
  have hf : ⌊q1⌋ ≤ ⌊q2⌋ := Int.floor_le_floor h
  rcases lt_or_eq_of_le hf with hlt | heq
  · unfold pythonRound
    split_ifs <;> omega
  · have h1 : q1 - (⌊q1⌋ : ℚ) ≤ q2 - (⌊q2⌋ : ℚ) := by
      rw [← heq]; linarith
    unfold pythonRound
    split_ifs <;> first | omega | linarith

theorem pythonRound_of_le_half {q : ℚ} (h0 : 0 ≤ q) (h1 : q ≤ 1 / 2) : pythonRound q = 0 := by
  have hf : ⌊q⌋ = 0 := by
    rw [Int.floor_eq_zero_iff]
    constructor
    · exact h0
    · linarith
  unfold pythonRound
  rw [hf]
  split_ifs <;> first | rfl | omega | (exfalso; push_cast at *; linarith)

theorem slice1_length_le (buffer : List ℕ) (a : ℕ) : (slice1 buffer a).length ≤ 1 := by
  simp only [slice1, List.length_take]
  omega

theorem slice1_eq_nil_of_le (buffer : List ℕ) (a : ℕ) (h : buffer.length ≤ a) :
    slice1 buffer a = [] := by
  simp [slice1, List.drop_eq_nil_of_le h]

theorem slice1_eq_of_lt (buffer : List ℕ) (a : ℕ) (h : a < buffer.length) :
    slice1 buffer a = [buffer.get ⟨a, h⟩] :=
  List.take_one_drop_eq_of_lt_length h

theorem pixel_loop_length_le (buffer : List ℕ) (fmt : List ColorFmtCode) :
    ∀ (a : ℕ) (r g b : List ℕ), r.length ≤ 1 → g.length ≤ 1 → b.length ≤ 1 →
      (pixel_loop buffer fmt a (r, g, b)).1.length ≤ 1 ∧
      (pixel_loop buffer fmt a (r, g, b)).2.1.length ≤ 1 ∧
      (pixel_loop buffer fmt a (r, g, b)).2.2.length ≤ 1 := by
  induction fmt with
  | nil => intro a r g b hr hg hb; exact ⟨hr, hg, hb⟩
  | cons c rest ih =>
    intro a r g b hr hg hb
    have hs := slice1_length_le buffer a
    cases c <;> simp only [pixel_loop, pixel_step] <;> exact ih _ _ _ _ (by assumption) (by assumption) (by assumption)

theorem pixel_bytes_length_le (buffer : List ℕ) (fmt : List ColorFmtCode) (a : ℕ) :
    (pixel_bytes buffer fmt a).length ≤ 3 := by
  obtain ⟨h1, h2, h3⟩ :=
    pixel_loop_length_le buffer fmt a [0] [0] [0] (by simp) (by simp) (by simp)
  simp only [pixel_bytes, List.length_append]
  omega

theorem frame_pixels_length_le (buffer : List ℕ) (fmt : List ColorFmtCode) :
    ∀ (n a : ℕ), (frame_pixels buffer fmt n a).length ≤ 3 * n := by
  intro n
  induction n with
  | zero => intro a; simp [frame_pixels]
  | succ m ih =>
    intro a
    have h1 := pixel_bytes_length_le buffer fmt a
    have h2 := ih (a + fmt.length)
    simp only [frame_pixels, List.length_append]
    omega

theorem pixel_loop_eq_slot_after (buffer : List ℕ) (fmt : List ColorFmtCode) :
    ∀ (a : ℕ) (r g b : List ℕ),
      pixel_loop buffer fmt a (r, g, b) =
        (slot_after buffer writes_red fmt a r,
         slot_after buffer writes_green fmt a g,
         slot_after buffer writes_blue fmt a b) := by
  induction fmt with
  | nil => intro a r g b; rfl
  | cons c rest ih =>
    intro a r g b
    cases c <;>
      simp only [pixel_loop, pixel_step, slot_after, writes_red, writes_green, writes_blue,
        if_true, if_false, Bool.false_eq_true, ite_false, ite_true] <;>
      exact ih _ _ _ _

theorem build_some_eq_map : ∀ (t : List Char) (l : List ColorFmtCode),
    build_color_format_list t = some l → l = t.map char_to_fmt := by
  intro t
  induction t with
  | nil =>
    intro l h
    simp only [build_color_format_list, Option.some.injEq] at h
    simp [← h]
  | cons c cs ih =>
    intro l h
    simp only [build_color_format_list] at h
    split_ifs at h with hc
    · cases hb : build_color_format_list cs with
      | none => rw [hb] at h; exact Option.noConfusion h
      | some l2 =>
        rw [hb] at h
        simp only [Option.some.injEq] at h
        rw [← h, List.map_cons, ih l2 hb]

theorem build_some_mem : ∀ (t : List Char) (l : List ColorFmtCode),
    build_color_format_list t = some l → ∀ c ∈ t, c ∈ VALID_OPTIONS := by
  intro t
  induction t with
  | nil => intro l _ c hc; cases hc
  | cons c0 cs ih =>
    intro l h c hc
    simp only [build_color_format_list] at h
    split_ifs at h with hc0
    · cases hb : build_color_format_list cs with
      | none => rw [hb] at h; exact Option.noConfusion h
      | some l2 =>
        rcases List.mem_cons.mp hc with rfl | hmem
        · exact hc0
        · exact ih l2 hb c hmem

theorem value_char_to_fmt : ∀ c ∈ VALID_OPTIONS, ColorFmtCode.value (char_to_fmt c) = c := by
  decide

theorem valid_char_fixed : ∀ c ∈ VALID_OPTIONS, isPySpace c = false ∧ pyLower c = c := by
  decide

theorem map_fix_of_mem {α : Type} (f : α → α) :
    ∀ (l : List α), (∀ c ∈ l, f c = c) → l.map f = l := by
  intro l
  induction l with
  | nil => intro _; rfl
  | cons a l ih =>
    intro h
    simp only [List.map_cons]
    rw [h a (by simp), ih (fun c hc => h c (by simp [hc]))]

theorem dropWhile_eq_of_forall {α : Type} (p : α → Bool) :
    ∀ (l : List α), (∀ c ∈ l, p c = false) → l.dropWhile p = l := by
  intro l h
  cases l with
  | nil => rfl
  | cons a l => simp [List.dropWhile_cons, h a (by simp)]

theorem pyStrip_eq_of_forall (l : List Char) (h : ∀ c ∈ l, isPySpace c = false) :
    pyStrip l = l := by
  unfold pyStrip
  rw [dropWhile_eq_of_forall _ l h,
    dropWhile_eq_of_forall _ l.reverse (fun c hc => h c (List.mem_reverse.mp hc))]
  exact List.reverse_reverse l

theorem normalize_format_mk (t : List Char) (h : ∀ c ∈ t, c ∈ VALID_OPTIONS) :
    normalize_format (String.mk t) = t := by
  unfold normalize_format
  have hdata : (String.mk t).data = t := rfl
  rw [hdata, pyStrip_eq_of_forall t (fun c hc => (valid_char_fixed c (h c hc)).1)]
  exact map_fix_of_mem pyLower t (fun c hc => (valid_char_fixed c (h c hc)).2)

theorem finish_parse_valid {t : List Char} {m : ColorModeCode} {u x cb : ℕ}
    {mode : ColorModeCode} {fmt : List ColorFmtCode}
    (h : finish_parse t m = ParseResult.valid u x cb mode fmt) :
    build_color_format_list t = some fmt := by
  unfold finish_parse at h
  cases hb : build_color_format_list t with
  | none => rw [hb] at h; exact ParseResult.noConfusion h
  | some l =>
    rw [hb] at h
    simp only [ParseResult.valid.injEq] at h
    rw [h.2.2.2.2]

theorem parse_core_valid_build {t : List Char} {u x cb : ℕ} {mode : ColorModeCode}
    {fmt : List ColorFmtCode}
    (h : parse_color_format_core t = ParseResult.valid u x cb mode fmt) :
    build_color_format_list t = some fmt := by
  simp only [parse_color_format_core] at h
  split_ifs at h <;>
    first
      | exact ParseResult.noConfusion h
      | exact finish_parse_valid h

/-- C1: for width >= 4, colorBytes >= 1, totalBytes >= 0, audioDurationMs > 0 and any
timestamp in [0, audioDurationMs], `get_address` returns
`round(ms * totalBlocks / audioDurationMs) * addressBlockSize`; it returns 0 at
timestamp 0, and at timestamp = audioDurationMs it returns
`totalBlocks * addressBlockSize` (which may exceed totalBytes; see the witness). -/
theorem get_address_formula_and_endpoints :
    ∀ (ms total_bytes audio_length_ms width color_bytes : ℕ),
      4 ≤ width → 1 ≤ color_bytes → 0 < audio_length_ms → ms ≤ audio_length_ms →
      (get_address ms total_bytes audio_length_ms width color_bytes =
        pythonRound ((ms : ℚ) * ((total_blocks total_bytes (width * color_bytes)) : ℚ) /
          (audio_length_ms : ℚ)) * (width * color_bytes)) ∧
      (ms = 0 → get_address ms total_bytes audio_length_ms width color_bytes = 0) ∧
      (ms = audio_length_ms →
        get_address ms total_bytes audio_length_ms width color_bytes =
          total_blocks total_bytes (width * color_bytes) * (width * color_bytes)) := by
  intro ms tb d w cb hw hc hd hms
  refine ⟨rfl, ?_, ?_⟩
  · rintro rfl
    simp [get_address, pythonRound_zero]
  · rintro rfl
    simp only [get_address]
    have hd0 : ((ms : ℚ)) ≠ 0 := Nat.cast_ne_zero.mpr hd.ne'
    rw [mul_div_cancel_left₀ _ hd0, pythonRound_intCast]
    push_cast
    ring

/-- C1 witness: at `ms = audioDurationMs = 2` with 10 total bytes, width 4 and
1 color byte, the address is `totalBlocks * addressBlockSize = 3 * 4 = 12 > 10`,
exceeding the buffer without being an error. -/
theorem get_address_formula_witness :
    get_address 2 10 2 4 1 = total_blocks 10 (4 * 1) * (4 * 1) :=
  (get_address_formula_and_endpoints 2 10 2 4 1 (by norm_num) (by norm_num)
    (by norm_num) (by norm_num)).2.2 rfl

/-- C2 counterexample: the format string `"gb"` contains no `w` and has a red count
of 0, so the claim as stated demands a `ValidationError`; the code accepts it
(`is_valid = True`): only counts above 1 and an all-zero colored count are
rejected in RGB mode. -/
theorem parse_gb_accepted :
    (parse_color_format "gb").is_valid = true ∧
    (normalize_format "gb").count 'w' = 0 ∧
    (normalize_format "gb").count 'r' = 0 := by
  decide

/-- C2 amended: in RGB mode (no `w` in the normalized string) the parser returns a
`ValidationError` whenever any of the `r`, `g`, `b` counts exceeds 1 or all three
counts are 0; a zero count for an individual channel is not by itself rejected. -/
theorem parse_rgb_mode_rejection :
    ∀ (s : String),
      (normalize_format s).count 'w' = 0 →
      (1 < (normalize_format s).count 'r' ∨ 1 < (normalize_format s).count 'g' ∨
        1 < (normalize_format s).count 'b' ∨
        (normalize_format s).count 'r' + (normalize_format s).count 'g' +
          (normalize_format s).count 'b' = 0) →
      (parse_color_format s).is_valid = false := by
  intro s h0 hd
  show (parse_color_format_core (normalize_format s)).is_valid = false
  simp only [parse_color_format_core]
  split_ifs <;> first | rfl | (exfalso; omega)

/-- C2 amended witness: `"rrg"` has two `r` tags and is rejected. -/
theorem parse_rgb_mode_rejection_witness :
    (parse_color_format "rrg").is_valid = false :=
  parse_rgb_mode_rejection "rrg" (by decide) (by decide)

/-- C3: for every buffer, tag list (with at least one tag), width >= 4, height >= 4
and starting address, the synthesized frame bytestring has length exactly
`width * height * 3`; the zero-padding restores the full length when pixel data
falls short. -/
theorem get_frame_bytestring_length :
    ∀ (buffer : List ℕ) (fmt : List ColorFmtCode) (width height a : ℕ),
      4 ≤ width → 4 ≤ height → 1 ≤ fmt.length →
      (get_frame_bytestring buffer fmt width height a).length = width * height * 3 := by
  intro buffer fmt w h a hw hh hf
  have hb := frame_pixels_length_le buffer fmt (h * w) a
  have hcomm : 3 * (h * w) = w * h * 3 := by ring
  simp only [get_frame_bytestring]
  split_ifs with hlt
  · simp only [List.length_append, List.length_replicate]
    omega
  · omega

/-- C3 witness: a 3-byte buffer, the default `"bgrx"` tag list, a 4x4 frame and
address 0 produce exactly 48 bytes. -/
theorem get_frame_bytestring_length_witness :
    (get_frame_bytestring [1, 2, 3]
      [ColorFmtCode.BLUE, ColorFmtCode.GREEN, ColorFmtCode.RED, ColorFmtCode.UNUSED]
      4 4 0).length = 4 * 4 * 3 :=
  get_frame_bytestring_length [1, 2, 3]
    [ColorFmtCode.BLUE, ColorFmtCode.GREEN, ColorFmtCode.RED, ColorFmtCode.UNUSED]
    4 4 0 (by norm_num) (by norm_num) (by norm_num)

/-- C4 counterexample: buffer `[7]`, tag list for `"gr"`, 4x4 frame, address 0.  The
green read (address 0) is in bounds with value 7, the red read (address 1) is out of
bounds.  The claim as stated predicts the pixel `[0, 7, 0]` (out-of-bounds red
channel zero, positions unshifted); the code produces `[7, 0, 0]`: the out-of-bounds
read yields an empty slice, so the green byte shifts into the red position. -/
theorem frame_oob_read_shifts :
    (get_frame_bytestring [7] [ColorFmtCode.GREEN, ColorFmtCode.RED] 4 4 0).take 3 =
      [7, 0, 0] ∧
    (get_frame_bytestring [7] [ColorFmtCode.GREEN, ColorFmtCode.RED] 4 4 0).take 3 ≠
      [0, 7, 0] := by
  decide

/-- C4 amended: a single-byte read past the end of the buffer yields the empty byte
string, not a zero byte: each `this_byte` slot ends up holding the one-byte slice of
the last tag that wrote it (empty when that read was out of bounds, so the slot
contributes nothing and later in-bounds channel bytes shift earlier within the
pixel), or the default zero byte if no tag wrote it; in-bounds reads keep their
source byte value.  The pixel is the concatenation of the three slots. -/
theorem frame_oob_read_semantics :
    ∀ (buffer : List ℕ) (fmt : List ColorFmtCode) (a : ℕ),
      (∀ j, buffer.length ≤ j → slice1 buffer j = []) ∧
      (∀ (j : ℕ) (h : j < buffer.length), slice1 buffer j = [buffer.get ⟨j, h⟩]) ∧
      pixel_bytes buffer fmt a =
        slot_after buffer writes_red fmt a [0] ++
        slot_after buffer writes_green fmt a [0] ++
        slot_after buffer writes_blue fmt a [0] := by
  intro buffer fmt a
  refine ⟨fun j hj => slice1_eq_nil_of_le buffer j hj,
    fun j h => slice1_eq_of_lt buffer j h, ?_⟩
  simp only [pixel_bytes]
  rw [pixel_loop_eq_slot_after]

/-- C4 amended witness: on buffer `[5]`, reading address 1 is out of bounds and
yields the empty slice, reading address 0 yields `[5]`, and the `"gr"` pixel at
address 0 decomposes into its three slots. -/
theorem frame_oob_read_semantics_witness :
    slice1 [5] 1 = [] ∧
    slice1 [5] 0 = [List.get [5] ⟨0, by norm_num⟩] ∧
    pixel_bytes [5] [ColorFmtCode.GREEN, ColorFmtCode.RED] 0 =
      slot_after [5] writes_red [ColorFmtCode.GREEN, ColorFmtCode.RED] 0 [0] ++
      slot_after [5] writes_green [ColorFmtCode.GREEN, ColorFmtCode.RED] 0 [0] ++
      slot_after [5] writes_blue [ColorFmtCode.GREEN, ColorFmtCode.RED] 0 [0] :=
  ⟨(frame_oob_read_semantics [5] [ColorFmtCode.GREEN, ColorFmtCode.RED] 0).1 1
      (by norm_num),
    (frame_oob_read_semantics [5] [ColorFmtCode.GREEN, ColorFmtCode.RED] 0).2.1 0
      (by norm_num),
    (frame_oob_read_semantics [5] [ColorFmtCode.GREEN, ColorFmtCode.RED] 0).2.2⟩

/-- C5 counterexample: with the 16-byte source, width 4 and colorBytes 4, the
timestamp 3 lies in [0, durationMs) for durationMs = 4 yet maps to byte offset 16,
not 0 (`round(3 * 1 / 4) = round(0.75) = 1`). -/
theorem address_upper_half_nonzero :
    (3 : ℕ) < 4 ∧ get_address 3 16 4 4 4 = 16 ∧ get_address 3 16 4 4 4 ≠ 0 := by
  have h : get_address 3 16 4 4 4 = 16 := by
    norm_num [get_address, total_blocks, pythonRound]
  exact ⟨by norm_num, h, by rw [h]; norm_num⟩

/-- C5 amended: for a 16-byte source with width 4 and colorBytes 4, `totalBlocks`
equals 1, and the address computation maps every timestamp `t` with
`2 * t <= durationMs` (the lower half of the duration, including its exact midpoint)
to byte offset 0; timestamps in the upper half may map to offset 16. -/
theorem address_lower_half_zero :
    ∀ (ms audio_length_ms : ℕ), 0 < audio_length_ms → 2 * ms ≤ audio_length_ms →
      total_blocks 16 (4 * 4) = 1 ∧ get_address ms 16 audio_length_ms 4 4 = 0 := by
  intro ms d hd hms
  have htb : total_blocks 16 (4 * 4) = 1 := by
    norm_num [total_blocks]
  refine ⟨htb, ?_⟩
  simp only [get_address, htb]
  have hd0 : (0 : ℚ) < (d : ℚ) := by exact_mod_cast hd
  have hcast : ((2 * ms : ℕ) : ℚ) ≤ (d : ℚ) := Nat.cast_le.mpr hms
  push_cast at hcast
  have hq0 : (0 : ℚ) ≤ (ms : ℚ) * ((1 : ℤ) : ℚ) / (d : ℚ) := by positivity
  have hq1 : (ms : ℚ) * ((1 : ℤ) : ℚ) / (d : ℚ) ≤ 1 / 2 := by
    rw [div_le_iff₀ hd0]
    push_cast
    linarith
  rw [pythonRound_of_le_half hq0 hq1]
  norm_num

/-- C5 amended witness: timestamp 2 of a 4 ms duration maps to offset 0. -/
theorem address_lower_half_zero_witness :
    total_blocks 16 (4 * 4) = 1 ∧ get_address 2 16 4 4 4 = 0 :=
  address_lower_half_zero 2 4 (by norm_num) (by norm_num)

/-- C6: at sample granularity, volume 100 skips the pydub scaling entirely, so the
PCM payload is byte-identical to the raw source; volume 0 scales every sample by the
ratio 0, so every sample of the container is zero. -/
theorem compute_audio_volume_spec :
    ∀ (samples : List ℤ) (sample_bytes : ℕ), 1 ≤ sample_bytes →
      compute_audio_payload samples sample_bytes 100 = samples ∧
      ∀ s ∈ compute_audio_payload samples sample_bytes 0, s = 0 := by
  intro samples sb hsb
  constructor
  · simp [compute_audio_payload]
  · intro s hs
    have hpos : (0 : ℤ) < 2 ^ (8 * sb - 1) := pow_pos (by norm_num) _
    simp only [compute_audio_payload, if_pos (by norm_num : (0 : ℤ) ≠ 100),
      List.mem_map] at hs
    obtain ⟨a, _, ha⟩ := hs
    rw [← ha]
    simp only [scale_sample, gain_factor, truncQ]
    norm_num
    omega

/-- C6 witness: a concrete two-sample buffer with 1-byte samples. -/
theorem compute_audio_volume_witness :
    compute_audio_payload [3, -5] 1 100 = [3, -5] ∧
    ∀ s ∈ compute_audio_payload [3, -5] 1 0, s = 0 :=
  compute_audio_volume_spec [3, -5] 1 (by norm_num)

/-- C7: for every format string that parses as valid, serializing the parsed tag
list (`get_color_format_string`) and re-parsing yields exactly the same parse
result: same tag list, same color mode, same derived byte counts. -/
theorem parse_serialize_roundtrip :
    ∀ (s : String) (u x cb : ℕ) (mode : ColorModeCode) (fmt : List ColorFmtCode),
      parse_color_format s = ParseResult.valid u x cb mode fmt →
      parse_color_format (get_color_format_string fmt) = parse_color_format s := by
  intro s u x cb mode fmt h
  have hcore : parse_color_format_core (normalize_format s) =
      ParseResult.valid u x cb mode fmt := h
  have hb := parse_core_valid_build hcore
  have hmem := build_some_mem (normalize_format s) fmt hb
  have hfmt := build_some_eq_map (normalize_format s) fmt hb
  have hser : get_color_format_string fmt = String.mk (normalize_format s) := by
    rw [hfmt]
    unfold get_color_format_string
    rw [List.map_map]
    congr 1
    exact map_fix_of_mem _ _ (fun c hc => value_char_to_fmt c (hmem c hc))
  rw [hser]
  show parse_color_format_core (normalize_format (String.mk (normalize_format s))) =
    parse_color_format s
  rw [normalize_format_mk _ hmem]
  exact hcore.trans h.symm

/-- C7 witness: round-trip at the concrete string `" BGRx "`. -/
theorem parse_serialize_roundtrip_witness :
    parse_color_format (get_color_format_string
      [ColorFmtCode.BLUE, ColorFmtCode.GREEN, ColorFmtCode.RED, ColorFmtCode.UNUSED]) =
      parse_color_format " BGRx " :=
  parse_serialize_roundtrip " BGRx " 3 1 4 ColorModeCode.RGB
    [ColorFmtCode.BLUE, ColorFmtCode.GREEN, ColorFmtCode.RED, ColorFmtCode.UNUSED]
    (by decide)

/-- C8: `get_frame_count` equals Python's `round` of the audio duration in seconds
times `fps`, and for a fixed duration it is monotonically nondecreasing in `fps`. -/
theorem get_frame_count_spec :
    ∀ (audio_length_ms : ℕ) (fps fps1 fps2 : ℚ),
      get_frame_count audio_length_ms fps =
        pythonRound ((audio_length_ms : ℚ) / 1000 * fps) ∧
      (fps1 ≤ fps2 →
        get_frame_count audio_length_ms fps1 ≤ get_frame_count audio_length_ms fps2) := by
  intro L fps f1 f2
  refine ⟨rfl, fun h => ?_⟩
  exact pythonRound_mono (mul_le_mul_of_nonneg_left h (by positivity))

/-- C8 witness: one second of audio gives 1 frame at 1 fps and 2 frames at 2 fps. -/
theorem get_frame_count_witness :
    get_frame_count 1000 1 ≤ get_frame_count 1000 2 :=
  (get_frame_count_spec 1000 1 1 2).2 (by norm_num)

/-- C9 counterexample: when the audio-export step raises (with a progress dialog
attached and no cancellation), `export_video` exits by exception with the scratch
directory still present, refuting "on every exit of exportVideo — success or
failure — the scratch directory is removed" (there is no try/finally around the
phases). -/
theorem export_video_exception_leaves_scratch :
    export_video true false false true false =
      (ExportResult.exception,
        { scratchExists := true, destExists := false, muxRan := false }) := by
  decide

/-- C9 amended: cancellation observed after Phase 1 aborts before muxing, removes
the scratch directory and leaves the destination absent; on every non-exception
exit (success or cancellation) the scratch directory is removed; and the artifact
is moved into the destination path exactly on the successful exit.  An exception
exit leaves the scratch directory behind. -/
theorem export_video_cleanup_spec :
    ∀ (has_dialog canceled1 canceled2 audio_raises mux_raises : Bool),
      (has_dialog = true → canceled1 = true →
        export_video has_dialog canceled1 canceled2 audio_raises mux_raises =
          (ExportResult.canceled,
            { scratchExists := false, destExists := false, muxRan := false })) ∧
      ((export_video has_dialog canceled1 canceled2 audio_raises mux_raises).1 ≠
          ExportResult.exception →
        (export_video has_dialog canceled1 canceled2 audio_raises mux_raises).2.scratchExists =
          false) ∧
      ((export_video has_dialog canceled1 canceled2 audio_raises mux_raises).2.destExists =
          true ↔
        (export_video has_dialog canceled1 canceled2 audio_raises mux_raises).1 =
          ExportResult.normal) := by
  decide

/-- C9 amended witness: a run cancelled during Phase 1. -/
theorem export_video_cleanup_witness :
    export_video true true false false false =
      (ExportResult.canceled,
        { scratchExists := false, destExists := false, muxRan := false }) :=
  (export_video_cleanup_spec true true false false false).1 rfl rfl

/-- C10: each configuration setter performs all of its validation before any
mutation, so when it raises, the state carried by the raise is exactly the prior
state: the stored configuration is unchanged. -/
theorem setters_validate_before_mutate :
    ∀ (s : BWConfig) (width height : ℤ) (cf : String) (nc sb sr v : ℤ)
      (e1 e2 e3 : String × BWConfig),
      (set_dims s width height = Except.error e1 → e1.2 = s) ∧
      (set_color_format s cf = Except.error e2 → e2.2 = s) ∧
      (set_audio_settings s nc sb sr v = Except.error e3 → e3.2 = s) := by
  intro s w h cf nc sb sr v e1 e2 e3
  refine ⟨?_, ?_, ?_⟩
  · intro he
    simp only [set_dims] at he
    split_ifs at he <;> (injection he with h2; rw [← h2])
  · intro he
    simp only [set_color_format] at he
    cases hp : parse_color_format cf <;> rw [hp] at he
    · injection he with h2
      rw [← h2]
    · exact Except.noConfusion he
  · intro he
    simp only [set_audio_settings] at he
    split_ifs at he <;> (injection he with h2; rw [← h2])

/-- C10 witness: the default configuration survives a rejected width of 3, a
rejected format string `"q"`, and a rejected volume of 200. -/
theorem setters_validate_witness :
    (("Visualization width must be at least 4", default_config)).2 = default_config ∧
    (((s!"A minimum of 1 color format specifer (\"r\", \"g\", \"b\", or \"w\") is required, but none were given in format string \"q\"" : String), default_config)).2 = default_config ∧
    (("Volume must be between 0 and 100", default_config)).2 = default_config :=
  ⟨(setters_validate_before_mutate default_config 3 10 "q" 1 1 1 200
      ("Visualization width must be at least 4", default_config)
      ((s!"A minimum of 1 color format specifer (\"r\", \"g\", \"b\", or \"w\") is required, but none were given in format string \"q\"" : String), default_config)
      ("Volume must be between 0 and 100", default_config)).1 rfl,
    (setters_validate_before_mutate default_config 3 10 "q" 1 1 1 200
      ("Visualization width must be at least 4", default_config)
      ((s!"A minimum of 1 color format specifer (\"r\", \"g\", \"b\", or \"w\") is required, but none were given in format string \"q\"" : String), default_config)
      ("Volume must be between 0 and 100", default_config)).2.1 rfl,
    (setters_validate_before_mutate default_config 3 10 "q" 1 1 1 200
      ("Visualization width must be at least 4", default_config)
      ((s!"A minimum of 1 color format specifer (\"r\", \"g\", \"b\", or \"w\") is required, but none were given in format string \"q\"" : String), default_config)
      ("Volume must be between 0 and 100", default_config)).2.2 rfl⟩

